import Mathlib

/-!
Verification of the browse service, the browse-by-taxonomy page selection
state and the log interceptor of the dspace-angular excerpt.

The definitions translate the TypeScript sources: pure helpers become Lean
functions, option-typed fields stand for possibly undefined values, and the
observable pipelines become functions on explicit emission lists.  Parts of
the repository that are referenced but not included (empty.util, the URL
combiner, the paginated-list and remote-data classes, the taxonomy page
component and the log interceptor themselves) are modelled from the spec and
say so in their doc comments.
-/

/-- Character-level split on the dot separator, translating the JS call that
splits the metadatum key in BrowseService.toSearchKeyArray: every dot starts a
new part, and the empty input yields one empty part. -/
def splitOnDotChars : List Char → List String
  | [] => [""]
  | c :: rest =>
    if c = '.' then "" :: splitOnDotChars rest
    else
      match splitOnDotChars rest with
      | [] => [String.mk [c]]
      | h :: t => String.mk (c :: h.data) :: t

/-- The dot-separated parts of a metadatum key. -/
def splitOnDot (s : String) : List String := splitOnDotChars s.data

/-- Joining string parts with the dot separator, translating the JS array join
used in BrowseService.toSearchKeyArray. -/
def joinDot : List String → String
  | [] => ""
  | [x] => x
  | x :: y :: t => x ++ "." ++ joinDot (y :: t)

/-- The accumulation loop of BrowseService.toSearchKeyArray: the iteration for
index i pushes the wildcard built from the first i + 1 key parts; the loop
runs while i is below the part count minus one. -/
def searchKeyLoop (keyParts : List String) : Nat → List String
  | 0 => []
  | n + 1 => searchKeyLoop keyParts n ++ [joinDot (keyParts.take (n + 1) ++ ["*"])]

/-- BrowseService.toSearchKeyArray: the full wildcard, the proper-prefix
wildcards produced by the loop, then the metadatum key itself. -/
def toSearchKeyArray (metadatumKey : String) : List String :=
  let keyParts := splitOnDot metadatumKey
  "*" :: searchKeyLoop keyParts (keyParts.length - 1) ++ [metadatumKey]

/-- The expansion as the spec words it: the wildcard, then for each proper
prefix of the dot-separated parts, in increasing length, the prefix followed
by a wildcard component, then the full key. -/
def toSearchKeyArraySpec (metadatumKey : String) : List String :=
  let keyParts := splitOnDot metadatumKey
  "*" :: ((List.range (keyParts.length - 1)).map
    (fun i => joinDot (keyParts.take (i + 1) ++ ["*"]))) ++ [metadatumKey]

/-- Modelled from the spec: sort options pair a field with a direction. -/
structure SortOptions where
  field : String
  direction : String
deriving DecidableEq

/-- Modelled from the spec: pagination options carry the current page and the
page size. -/
structure PaginationOptions where
  currentPage : Int
  pageSize : Int
deriving DecidableEq

/-- Modelled from the spec: BrowseEntrySearchOptions is a value object holding
the metadata-definition key together with scope, sort (field and direction),
pagination (page and size) and startsWith prefix, each possibly absent. -/
structure BrowseEntrySearchOptions where
  metadataDefinition : String
  scope : Option String
  sort : Option SortOptions
  pagination : Option PaginationOptions
  startsWith : Option String
deriving DecidableEq

/-- JS template interpolation of a possibly undefined string: an absent value
renders as the text undefined. -/
def jsStr : Option String → String
  | none => "undefined"
  | some s => s

/-- Modelled from the spec: a string option counts as non-empty when it is
present and not the empty string (the empty.util helpers are referenced by the
source but are not part of the excerpt). -/
def isNotEmptyStr : Option String → Bool
  | none => false
  | some s => s != ""

/-- The query-argument list built inside BrowseService.getBrowseEntriesFor:
the guard of the scope argument tests options.sort, exactly as the source
does. -/
def browseEntriesArgs (options : BrowseEntrySearchOptions) : List String :=
  let args : List String := []
  let args := if options.sort.isSome then args ++ ["scope=" ++ jsStr options.scope] else args
  let args := match options.sort with
    | some sort => args ++ ["sort=" ++ sort.field ++ "," ++ sort.direction]
    | none => args
  let args := match options.pagination with
    | some pagination =>
        args ++ ["page=" ++ toString (pagination.currentPage - 1),
                 "size=" ++ toString pagination.pageSize]
    | none => args
  let args := if isNotEmptyStr options.startsWith
    then args ++ ["startsWith=" ++ jsStr options.startsWith] else args
  args

/-- The query-argument list built inside BrowseService.getBrowseItemsFor: the
same arguments as for entries (including the sort-guarded scope argument of
the source) followed by the filter value when it is non-empty. -/
def browseItemsArgs (filterValue : String) (options : BrowseEntrySearchOptions) : List String :=
  let args : List String := []
  let args := if options.sort.isSome then args ++ ["scope=" ++ jsStr options.scope] else args
  let args := match options.sort with
    | some sort => args ++ ["sort=" ++ sort.field ++ "," ++ sort.direction]
    | none => args
  let args := match options.pagination with
    | some pagination =>
        args ++ ["page=" ++ toString (pagination.currentPage - 1),
                 "size=" ++ toString pagination.pageSize]
    | none => args
  let args := if isNotEmptyStr options.startsWith
    then args ++ ["startsWith=" ++ jsStr options.startsWith] else args
  let args := if filterValue != "" then args ++ ["filterValue=" ++ filterValue] else args
  args

/-- Modelled from the spec: the URL combiner appends the joined query string
to the href; the source guards the combination with a non-emptiness test on
the argument list. -/
def appendQueryArgs (href : String) (args : List String) : String :=
  if args.isEmpty then href else href ++ "?" ++ String.intercalate "&" args

/-- A query-argument list carries a parameter when some argument starts with
the parameter name followed by the equals sign. -/
def hasParam (args : List String) (name : String) : Bool :=
  args.any (fun a => (name ++ "=").data.isPrefixOf a.data)

/-- The query-argument list built inside BrowseService.getFirstItemFor: the
scope argument when a scope is provided, then always page zero and size
one. -/
def firstItemArgs (scope : Option String) : List String :=
  let args : List String := []
  let args := match scope with
    | some scope => args ++ ["scope=" ++ scope]
    | none => args
  let args := args ++ ["page=0"]
  let args := args ++ ["size=1"]
  args

/-- A browse definition: its metadata-key list and its links, the latter as an
association list indexed by link path (the _links object of the source). -/
structure BrowseDefinition where
  metadataKeys : List String
  links : List (String × String)
deriving DecidableEq

/-- The matching test of BrowseService.getBrowseURLFor: the first metadata key
of the definition that occurs in the search-key sequence, passed through the
non-emptiness test of the source. -/
def defMatches (searchFor : List String) (d : BrowseDefinition) : Bool :=
  match d.metadataKeys.find? (fun key => searchFor.contains key) with
  | some key => key != ""
  | none => false

/-- The matching condition as the spec words it: the metadata-key list of the
definition intersects the search-key sequence. -/
def intersectsSearchKeys (searchFor : List String) (d : BrowseDefinition) : Bool :=
  d.metadataKeys.any (fun key => searchFor.contains key)

/-- One resolution of BrowseService.getBrowseURLFor on a fetched definition
list: find the first matching definition and return its link for the given
link path; a missing definition, a missing link or an empty link raises the
configuration error of the source (the source also tests the whole _links
object for emptiness, which the link lookup subsumes). -/
def browseURLStep (metadatumKey linkPath : String) (defs : List BrowseDefinition) :
    Except String String :=
  match defs.find? (fun d => defMatches (toSearchKeyArray metadatumKey) d) with
  | none =>
      Except.error ("A browse endpoint for " ++ linkPath ++ " on " ++ metadatumKey
        ++ " is not configured")
  | some d =>
    match d.links.lookup linkPath with
    | none =>
        Except.error ("A browse endpoint for " ++ linkPath ++ " on " ++ metadatumKey
          ++ " is not configured")
    | some link =>
        if link == "" then
          Except.error ("A browse endpoint for " ++ linkPath ++ " on " ++ metadatumKey
            ++ " is not configured")
        else Except.ok link

/-- An event of the observable returned by getBrowseURLFor: a value emission
(undefined or a link) or a stream error. -/
inductive StreamEvent
  | next (v : Option String)
  | fail (e : String)
deriving DecidableEq

/-- The mapped emissions of getBrowseURLFor: each fetched definition list is
resolved to a link; a thrown error terminates the stream. -/
def mapUntilError (metadatumKey linkPath : String) :
    List (List BrowseDefinition) → List StreamEvent
  | [] => []
  | defs :: rest =>
    match browseURLStep metadatumKey linkPath defs with
    | Except.ok link => StreamEvent.next (some link) :: mapUntilError metadatumKey linkPath rest
    | Except.error e => [StreamEvent.fail e]

/-- The distinctUntilChanged operator on the event list: a value emission equal
to the previous one is dropped; errors pass through. -/
def dedupEvents (last : Option (Option String)) : List StreamEvent → List StreamEvent
  | [] => []
  | StreamEvent.next v :: rest =>
    if last = some v then dedupEvents last rest
    else StreamEvent.next v :: dedupEvents (some v) rest
  | StreamEvent.fail e :: rest => StreamEvent.fail e :: dedupEvents last rest

/-- The event sequence of BrowseService.getBrowseURLFor: the resolutions of
the successive definition-list emissions, prefixed by the startWith undefined
emission and deduplicated by distinctUntilChanged. -/
def getBrowseURLForEvents (metadatumKey linkPath : String)
    (payloads : List (List BrowseDefinition)) : List StreamEvent :=
  dedupEvents none (StreamEvent.next none :: mapUntilError metadatumKey linkPath payloads)

/-- An item, identified by its uuid; no other field is inspected here. -/
structure Item where
  uuid : String
deriving DecidableEq

/-- Modelled from the spec: a paginated list is page metadata (prev and next
links, possibly absent) plus the ordered page of results. -/
structure PaginatedList (α : Type) where
  page : List α
  prev : Option String
  next : Option String
deriving DecidableEq

/-- Modelled from the spec: remote data wraps the status of an asynchronous
fetch; only its possibly-absent payload matters here. -/
structure RemoteData (α : Type) where
  payload : Option α
deriving DecidableEq

/-- Modelled from the spec: the getFirstOccurrence operator takes the first
element of the resulting page. -/
def getFirstOccurrence (pl : PaginatedList α) : Option α := pl.page.head?

/-- BrowseService.getPrevBrowseItems reads items.payload.prev without a guard:
an absent payload leaves the operation undefined (the outer none); otherwise
the request is issued for exactly the prev link value, itself possibly
absent. -/
def getPrevBrowseItems (items : RemoteData (PaginatedList Item)) : Option (Option String) :=
  match items.payload with
  | none => none
  | some pl => some pl.prev

/-- BrowseService.getNextBrowseItems, symmetric to getPrevBrowseItems on the
next link. -/
def getNextBrowseItems (items : RemoteData (PaginatedList Item)) : Option (Option String) :=
  match items.payload with
  | none => none
  | some pl => some pl.next

/-- Modelled from the spec: a taxonomy node is a label and value pair. -/
structure VocabularyEntryDetail where
  label : String
  value : String
deriving DecidableEq

/-- The selection state of the browse-by-taxonomy page component: the selected
entries and the parallel list of filter strings. -/
structure BrowseByTaxonomyState where
  selectedItems : List VocabularyEntryDetail
  filterValues : List String
deriving DecidableEq

/-- The filter string derived from a taxonomy entry: its value followed by the
equals operator. -/
def filterString (d : VocabularyEntryDetail) : String := d.value ++ ",equals"

/-- Modelled from the spec: onSelect appends the entry to selectedItems and
appends its derived filter string to filterValues. -/
def onSelect (s : BrowseByTaxonomyState) (d : VocabularyEntryDetail) : BrowseByTaxonomyState :=
  BrowseByTaxonomyState.mk (s.selectedItems ++ [d]) (s.filterValues ++ [filterString d])

/-- Modelled from the spec: onDeselect removes the entry from selectedItems
and removes the matching filter string, preserving the relative order of the
remaining entries; matching is by the entry value, from which the filter
string is derived. -/
def onDeselect (s : BrowseByTaxonomyState) (d : VocabularyEntryDetail) : BrowseByTaxonomyState :=
  BrowseByTaxonomyState.mk (s.selectedItems.filter (fun x => x.value != d.value))
    (s.filterValues.filter (fun v => v != filterString d))

/-- A user interaction on the taxonomy page: selecting or deselecting an
entry. -/
inductive TaxonomyOp
  | select (d : VocabularyEntryDetail)
  | deselect (d : VocabularyEntryDetail)
deriving DecidableEq

/-- Applying one interaction to the selection state. -/
def applyOp (s : BrowseByTaxonomyState) : TaxonomyOp → BrowseByTaxonomyState
  | TaxonomyOp.select d => onSelect s d
  | TaxonomyOp.deselect d => onDeselect s d

/-- The empty selection state the component starts from. -/
def initialTaxonomyState : BrowseByTaxonomyState := BrowseByTaxonomyState.mk [] []

/-- The selection state after a sequence of interactions from the empty
state. -/
def runOps (ops : List TaxonomyOp) : BrowseByTaxonomyState :=
  ops.foldl applyOp initialTaxonomyState

/-- The invariant of the taxonomy page selection state: both lists have the
same length and the filter string at every index is the value of the selected
entry at that index followed by the equals operator. -/
def selectionInvariant (s : BrowseByTaxonomyState) : Prop :=
  s.selectedItems.length = s.filterValues.length ∧
  ∀ i : Nat, s.filterValues[i]? = (s.selectedItems[i]?).map filterString

/-- An outgoing HTTP request: its URL and its header list. -/
structure HttpRequest where
  url : String
  headers : List (String × String)
deriving DecidableEq

/-- Modelled from the spec: the log interceptor attaches the correlation id
(from the correlation-id service and cookie) as X-CORRELATION-ID and the
current router URL as X-REFERRER to every outgoing request. -/
def logIntercept (correlationId routerUrl : String) (req : HttpRequest) : HttpRequest :=
  HttpRequest.mk req.url
    (req.headers ++ [("X-CORRELATION-ID", correlationId), ("X-REFERRER", routerUrl)])

theorem searchKeyLoop_eq_range (keyParts : List String) (n : Nat) :
    searchKeyLoop keyParts n =
      (List.range n).map (fun i => joinDot (keyParts.take (i + 1) ++ ["*"])) := by
  induction n with
  | zero => rfl
  | succ m ih => simp [searchKeyLoop, List.range_succ, ih]

theorem joinDot_append_star_ne_empty (xs : List String) : joinDot (xs ++ ["*"]) ≠ "" := by
  cases xs with
  | nil => decide
  | cons x rest =>
    cases hxs : rest ++ ["*"] with
    | nil => exact absurd hxs (by simp)
    | cons y t =>
      show joinDot (x :: (rest ++ ["*"])) ≠ ""
      rw [hxs]
      intro h
      have hlen := congrArg String.length h
      simp [joinDot, String.length_append] at hlen
      exact absurd hlen.1.2 (by decide)

theorem mem_toSearchKeyArray_ne_empty (metadatumKey : String) (hk : metadatumKey ≠ "")
    (x : String) (hx : x ∈ toSearchKeyArray metadatumKey) : x ≠ "" := by
  simp only [toSearchKeyArray, List.mem_cons, List.mem_append, List.mem_singleton] at hx
  rcases hx with (hx | hx) | hx | hx
  · subst hx; decide
  · rw [searchKeyLoop_eq_range] at hx
    obtain ⟨i, _, hix⟩ := List.mem_map.mp hx
    rw [← hix]
    exact joinDot_append_star_ne_empty _
  · subst hx
    exact hk
  · exact absurd hx (List.not_mem_nil x)

theorem defMatches_eq_intersects (metadatumKey : String) (hk : metadatumKey ≠ "")
    (d : BrowseDefinition) :
    defMatches (toSearchKeyArray metadatumKey) d =
      intersectsSearchKeys (toSearchKeyArray metadatumKey) d := by
  unfold defMatches intersectsSearchKeys
  cases hfind : d.metadataKeys.find? (fun key => (toSearchKeyArray metadatumKey).contains key) with
  | none =>
    have hall := List.find?_eq_none.mp hfind
    show false = d.metadataKeys.any fun key => (toSearchKeyArray metadatumKey).contains key
    cases hany : d.metadataKeys.any fun key => (toSearchKeyArray metadatumKey).contains key with
    | false => rfl
    | true =>
      obtain ⟨k, hkmem, hkc⟩ := List.any_eq_true.mp hany
      exact absurd hkc (hall k hkmem)
  | some key =>
    have hp : ((toSearchKeyArray metadatumKey).contains key) = true := List.find?_some hfind
    have hmem : key ∈ d.metadataKeys := List.mem_of_find?_eq_some hfind
    have hne : key ≠ "" :=
      mem_toSearchKeyArray_ne_empty metadatumKey hk key (by simpa using hp)
    show (key != "") = d.metadataKeys.any fun key => (toSearchKeyArray metadatumKey).contains key
    rw [bne_iff_ne.mpr hne]
    symm
    rw [List.any_eq_true]
    exact ⟨key, hmem, hp⟩

/-- Claim C3: toSearchKeyArray applied to the dotted key a.b.c returns exactly
the wildcard, the two proper-prefix wildcards and the full key, and in general
it returns the wildcard followed by the proper-prefix wildcards in increasing
length followed by the full key. -/
theorem toSearchKeyArray_expansion :
    toSearchKeyArray "a.b.c" = ["*", "a.*", "a.b.*", "a.b.c"] ∧
    ∀ metadatumKey : String, toSearchKeyArray metadatumKey = toSearchKeyArraySpec metadatumKey := by
  constructor
  · decide
  · intro metadatumKey
    simp [toSearchKeyArray, toSearchKeyArraySpec, searchKeyLoop_eq_range]

/-- Claim C2 (counterexample): with the empty metadatum key, a definition
whose key list intersects the search-key sequence only through the empty
string is skipped and the call errors although the intersection is non-empty
and the requested link exists; and a matched definition whose configured link
is the empty string also errors although a link entry for the path is
present. -/
theorem getBrowseURLFor_claim_counterexample :
    (browseURLStep "" "items" [BrowseDefinition.mk [""] [("items", "L")]]).isOk = false ∧
    intersectsSearchKeys (toSearchKeyArray "") (BrowseDefinition.mk [""] [("items", "L")]) = true ∧
    (BrowseDefinition.mk [""] [("items", "L")]).links.lookup "items" = some "L" ∧
    (browseURLStep "dc.title" "items" [BrowseDefinition.mk ["dc.title"] [("items", "")]]).isOk = false ∧
    intersectsSearchKeys (toSearchKeyArray "dc.title")
      (BrowseDefinition.mk ["dc.title"] [("items", "")]) = true ∧
    (BrowseDefinition.mk ["dc.title"] [("items", "")]).links.lookup "items" = some "" := by
  decide

/-- Claim C2 (amended): for a non-empty metadatum key, getBrowseURLFor selects
the first browse definition whose metadata-key list intersects the wildcard
search-key sequence and emits its link for the requested link path; it raises
the configuration error exactly when no definition intersects the sequence or
when the selected definition has no link, or only an empty link, for that
path. -/
theorem getBrowseURLFor_matching (metadatumKey linkPath : String)
    (defs : List BrowseDefinition) (hk : metadatumKey ≠ "") :
    (∀ link, browseURLStep metadatumKey linkPath defs = Except.ok link →
      ∃ d, defs.find? (fun d => intersectsSearchKeys (toSearchKeyArray metadatumKey) d) = some d ∧
        d.links.lookup linkPath = some link ∧ link ≠ "") ∧
    ((∃ e, browseURLStep metadatumKey linkPath defs = Except.error e) ↔
      ∀ d, defs.find? (fun d => intersectsSearchKeys (toSearchKeyArray metadatumKey) d) = some d →
        (d.links.lookup linkPath = none ∨ d.links.lookup linkPath = some "")) := by
  have hpred : (fun d => defMatches (toSearchKeyArray metadatumKey) d) =
      (fun d => intersectsSearchKeys (toSearchKeyArray metadatumKey) d) :=
    funext (fun d => defMatches_eq_intersects metadatumKey hk d)
  cases hfind : defs.find? (fun d => intersectsSearchKeys (toSearchKeyArray metadatumKey) d) with
  | none =>
    have hstep : browseURLStep metadatumKey linkPath defs =
        Except.error ("A browse endpoint for " ++ linkPath ++ " on " ++ metadatumKey
          ++ " is not configured") := by
      simp only [browseURLStep, hpred, hfind]
    refine ⟨?_, ?_⟩
    · intro link h
      rw [hstep] at h
      exact absurd h (by simp)
    · constructor
      · intro _ d hd
        exact absurd hd (by simp)
      · intro _
        exact ⟨_, hstep⟩
  | some d =>
    cases hlook : d.links.lookup linkPath with
    | none =>
      have hstep : browseURLStep metadatumKey linkPath defs =
          Except.error ("A browse endpoint for " ++ linkPath ++ " on " ++ metadatumKey
            ++ " is not configured") := by
        simp only [browseURLStep, hpred, hfind, hlook]
      refine ⟨?_, ?_⟩
      · intro link h
        rw [hstep] at h
        exact absurd h (by simp)
      · constructor
        · intro _ d' hd'
          injection hd' with hd'
          subst hd'
          exact Or.inl hlook
        · intro _
          exact ⟨_, hstep⟩
    | some link =>
      cases hblank : link == "" with
      | true =>
        have hempty : link = "" := by simpa using hblank
        have hstep : browseURLStep metadatumKey linkPath defs =
            Except.error ("A browse endpoint for " ++ linkPath ++ " on " ++ metadatumKey
              ++ " is not configured") := by
          simp only [browseURLStep, hpred, hfind, hlook, hblank, if_true]
        refine ⟨?_, ?_⟩
        · intro link' h
          rw [hstep] at h
          exact absurd h (by simp)
        · constructor
          · intro _ d' hd'
            injection hd' with hd'
            subst hd'
            exact Or.inr (hempty ▸ hlook)
          · intro _
            exact ⟨_, hstep⟩
      | false =>
        have hne : link ≠ "" := by simpa using hblank
        have hstep : browseURLStep metadatumKey linkPath defs = Except.ok link := by
          simp only [browseURLStep, hpred, hfind, hlook, hblank]
          rfl
        refine ⟨?_, ?_⟩
        · intro link' h
          rw [hstep] at h
          injection h with h
          subst h
          exact ⟨d, rfl, hlook, hne⟩
        · constructor
          · rintro ⟨e, he⟩
            rw [hstep] at he
            exact absurd he (by simp)
          · intro hcontra
            rcases hcontra d rfl with hnone | hempty'
            · rw [hlook] at hnone
              exact absurd hnone (by simp)
            · rw [hlook] at hempty'
              injection hempty' with hempty'
              exact absurd hempty' hne

/-- Witness for the amended C2 theorem at a concrete configuration. -/
theorem getBrowseURLFor_matching_witness :
    ("dc.contributor.author" ≠ "") ∧
    (∃ d, [BrowseDefinition.mk ["dc.contributor.author"] [("entries", "E"), ("items", "I")]].find?
        (fun d => intersectsSearchKeys (toSearchKeyArray "dc.contributor.author") d) = some d ∧
      d.links.lookup "entries" = some "E" ∧ "E" ≠ "") :=
  ⟨by decide,
   (getBrowseURLFor_matching "dc.contributor.author" "entries"
      [BrowseDefinition.mk ["dc.contributor.author"] [("entries", "E"), ("items", "I")]]
      (by decide)).1 "E" rfl⟩

/-- Claim C9: the observable returned by getBrowseURLFor emits undefined as
its first value, before any link value or error, for every metadatum key, link
path and sequence of fetched definition lists. -/
theorem getBrowseURLFor_first_emission (metadatumKey linkPath : String)
    (payloads : List (List BrowseDefinition)) :
    (getBrowseURLForEvents metadatumKey linkPath payloads).head? =
      some (StreamEvent.next none) := by
  simp [getBrowseURLForEvents, dedupEvents]

/-- Claim C1 (code bug): in getBrowseEntriesFor and getBrowseItemsFor the
scope query parameter is guarded by the sort option instead of the scope
option, so a non-empty scope with an absent sort produces no scope parameter,
while a present sort with an absent scope produces the parameter with the
undefined rendering. -/
theorem browse_scope_guard_defect :
    browseEntriesArgs (BrowseEntrySearchOptions.mk "author" (some "col1") none none none) = [] ∧
    appendQueryArgs "base/author/entries"
      (browseEntriesArgs (BrowseEntrySearchOptions.mk "author" (some "col1") none none none)) =
      "base/author/entries" ∧
    browseEntriesArgs
      (BrowseEntrySearchOptions.mk "author" none (some (SortOptions.mk "dc.title" "ASC")) none none) =
      ["scope=undefined", "sort=dc.title,ASC"] ∧
    browseItemsArgs "Smith" (BrowseEntrySearchOptions.mk "author" (some "col1") none none none) =
      ["filterValue=Smith"] ∧
    hasParam (browseItemsArgs "Smith"
      (BrowseEntrySearchOptions.mk "author" (some "col1") none none none)) "scope" = false := by
  decide

/-- Claim C7: the query arguments of getFirstItemFor always contain page zero
and size one, contain the scope argument exactly when a scope is provided, and
the operation takes the first element of the resulting page. -/
theorem getFirstItemFor_params (scope : Option String) (pl : PaginatedList Item) :
    "page=0" ∈ firstItemArgs scope ∧ "size=1" ∈ firstItemArgs scope ∧
    (scope = none → firstItemArgs scope = ["page=0", "size=1"]) ∧
    (∀ s, scope = some s → firstItemArgs scope = ["scope=" ++ s, "page=0", "size=1"]) ∧
    getFirstOccurrence pl = pl.page.head? := by
  cases scope <;> simp [firstItemArgs, getFirstOccurrence]

/-- Witness for the C7 theorem at a concrete scope. -/
theorem getFirstItemFor_params_witness :
    firstItemArgs (some "col1") = ["scope=" ++ "col1", "page=0", "size=1"] ∧
    "page=0" ∈ firstItemArgs (some "col1") :=
  ⟨(getFirstItemFor_params (some "col1") (PaginatedList.mk ([] : List Item) none none)).2.2.2.1
      "col1" rfl,
   (getFirstItemFor_params (some "col1") (PaginatedList.mk ([] : List Item) none none)).1⟩

/-- Claim C10: getPrevBrowseItems and getNextBrowseItems are undefined exactly
when the remote data has no payload, and with a payload they issue the request
for exactly the prev, respectively next, link value, absent or not. -/
theorem prev_next_require_payload (items : RemoteData (PaginatedList Item)) :
    (getPrevBrowseItems items = none ↔ items.payload = none) ∧
    (getNextBrowseItems items = none ↔ items.payload = none) ∧
    ∀ pl, items.payload = some pl →
      getPrevBrowseItems items = some pl.prev ∧ getNextBrowseItems items = some pl.next := by
  obtain ⟨payload⟩ := items
  cases payload <;> simp [getPrevBrowseItems, getNextBrowseItems]

/-- Witness for the C10 theorem: with a payload whose prev link is absent, the
prev request is still issued, for the absent link value. -/
theorem prev_next_require_payload_witness :
    (RemoteData.mk (some (PaginatedList.mk ([] : List Item) none (some "base?page=1")))).payload =
      some (PaginatedList.mk ([] : List Item) none (some "base?page=1")) ∧
    getPrevBrowseItems
      (RemoteData.mk (some (PaginatedList.mk ([] : List Item) none (some "base?page=1")))) =
      some none :=
  ⟨rfl,
   ((prev_next_require_payload
      (RemoteData.mk (some (PaginatedList.mk ([] : List Item) none (some "base?page=1"))))).2.2
      (PaginatedList.mk ([] : List Item) none (some "base?page=1")) rfl).1⟩

theorem string_append_cancel (a b c : String) (h : a ++ c = b ++ c) : a = b := by
  have hd := congrArg String.data h
  simp only [String.data_append] at hd
  exact String.ext (List.append_cancel_right hd)

theorem filterString_eq_iff (x d : VocabularyEntryDetail) :
    filterString x = filterString d ↔ x.value = d.value := by
  constructor
  · intro h
    exact string_append_cancel _ _ _ h
  · intro h
    simp [filterString, h]

theorem filterString_beq (x d : VocabularyEntryDetail) :
    (filterString x == filterString d) = (x.value == d.value) := by
  by_cases h : x.value = d.value
  · simp [h, (filterString_eq_iff x d).mpr h]
  · have hns : filterString x ≠ filterString d := fun hc => h ((filterString_eq_iff x d).mp hc)
    simp [h, hns]

theorem filterString_bne (x d : VocabularyEntryDetail) :
    (filterString x != filterString d) = (x.value != d.value) := by
  simp only [bne, filterString_beq]

theorem applyOp_filter_map (s : BrowseByTaxonomyState) (op : TaxonomyOp)
    (h : s.filterValues = s.selectedItems.map filterString) :
    (applyOp s op).filterValues = (applyOp s op).selectedItems.map filterString := by
  cases op with
  | select d => simp [applyOp, onSelect, h]
  | deselect d =>
    simp only [applyOp, onDeselect]
    rw [h, List.filter_map]
    congr 1
    apply List.filter_congr
    intro x _
    simp only [Function.comp_apply, filterString_bne]

theorem foldl_filter_map (ops : List TaxonomyOp) (s : BrowseByTaxonomyState)
    (h : s.filterValues = s.selectedItems.map filterString) :
    (ops.foldl applyOp s).filterValues = (ops.foldl applyOp s).selectedItems.map filterString := by
  induction ops generalizing s with
  | nil => simpa using h
  | cons op rest ih => exact ih (applyOp s op) (applyOp_filter_map s op h)

theorem selectionInvariant_iff (s : BrowseByTaxonomyState) :
    selectionInvariant s ↔ s.filterValues = s.selectedItems.map filterString := by
  constructor
  · rintro ⟨_, hpt⟩
    apply List.ext_getElem?
    intro i
    rw [hpt i, List.getElem?_map]
  · intro h
    refine ⟨?_, ?_⟩
    · rw [h, List.length_map]
    · intro i
      rw [h, List.getElem?_map]

/-- Claim C4: after any sequence of onSelect and onDeselect calls from the
empty state, selectedItems and filterValues have equal length and each filter
string is the value of the selected entry at the same index followed by the
equals operator; both operations preserve this invariant. -/
theorem taxonomy_selection_invariant (ops : List TaxonomyOp) (s : BrowseByTaxonomyState)
    (d : VocabularyEntryDetail) :
    selectionInvariant (runOps ops) ∧
    (selectionInvariant s → selectionInvariant (onSelect s d)) ∧
    (selectionInvariant s → selectionInvariant (onDeselect s d)) := by
  refine ⟨?_, ?_, ?_⟩
  · rw [selectionInvariant_iff]
    exact foldl_filter_map ops initialTaxonomyState rfl
  · intro hs
    rw [selectionInvariant_iff] at hs ⊢
    exact applyOp_filter_map s (TaxonomyOp.select d) hs
  · intro hs
    rw [selectionInvariant_iff] at hs ⊢
    exact applyOp_filter_map s (TaxonomyOp.deselect d) hs

/-- Witness for the C4 theorem: the invariant holds in the empty state and is
preserved by a concrete selection. -/
theorem taxonomy_selection_invariant_witness :
    selectionInvariant initialTaxonomyState ∧
    selectionInvariant (onSelect initialTaxonomyState (VocabularyEntryDetail.mk "l1" "TECHNOLOGY")) :=
  ⟨(selectionInvariant_iff initialTaxonomyState).mpr rfl,
   (taxonomy_selection_invariant [] initialTaxonomyState
      (VocabularyEntryDetail.mk "l1" "TECHNOLOGY")).2.1
     ((selectionInvariant_iff initialTaxonomyState).mpr rfl)⟩

/-- Claim C5: from the empty state, selecting entries a then b yields the two
filter strings in order, and a subsequent deselect of a leaves exactly the
filter string of b. -/
theorem taxonomy_select_order (a b : VocabularyEntryDetail) (hab : a.value ≠ b.value) :
    (onSelect (onSelect initialTaxonomyState a) b).filterValues =
      [a.value ++ ",equals", b.value ++ ",equals"] ∧
    (onDeselect (onSelect (onSelect initialTaxonomyState a) b) a).filterValues =
      [b.value ++ ",equals"] := by
  have hba : (filterString b != filterString a) = true := by
    rw [filterString_bne]
    exact bne_iff_ne.mpr (Ne.symm hab)
  constructor
  · simp [onSelect, initialTaxonomyState, filterString]
  · simp only [onSelect, onDeselect, initialTaxonomyState, List.nil_append,
      List.cons_append, List.filter_cons, List.filter_nil, bne_self_eq_false, hba]
    simp [filterString]

/-- Witness for the C5 theorem at the concrete entries of the component
test. -/
theorem taxonomy_select_order_witness :
    ((VocabularyEntryDetail.mk "l1" "HUMANITIES and RELIGION").value ≠
      (VocabularyEntryDetail.mk "l2" "TECHNOLOGY").value) ∧
    (onDeselect (onSelect (onSelect initialTaxonomyState
        (VocabularyEntryDetail.mk "l1" "HUMANITIES and RELIGION"))
        (VocabularyEntryDetail.mk "l2" "TECHNOLOGY"))
      (VocabularyEntryDetail.mk "l1" "HUMANITIES and RELIGION")).filterValues =
      ["TECHNOLOGY,equals"] :=
  ⟨by decide,
   (taxonomy_select_order (VocabularyEntryDetail.mk "l1" "HUMANITIES and RELIGION")
      (VocabularyEntryDetail.mk "l2" "TECHNOLOGY") (by decide)).2⟩

/-- Claim C6 (counterexample): selecting an entry that is already selected and
then deselecting it empties the selection instead of restoring the state that
preceded the selection. -/
theorem select_deselect_not_identity :
    onDeselect (onSelect (BrowseByTaxonomyState.mk [VocabularyEntryDetail.mk "l" "TECHNOLOGY"]
        ["TECHNOLOGY,equals"]) (VocabularyEntryDetail.mk "l" "TECHNOLOGY"))
      (VocabularyEntryDetail.mk "l" "TECHNOLOGY") ≠
    BrowseByTaxonomyState.mk [VocabularyEntryDetail.mk "l" "TECHNOLOGY"] ["TECHNOLOGY,equals"] := by
  decide

/-- Claim C6 (amended): selecting and then deselecting the same entry restores
the selection state whenever no already-selected item carries the entry value
and the entry filter string is not already present. -/
theorem select_deselect_identity (s : BrowseByTaxonomyState) (d : VocabularyEntryDetail)
    (h1 : ∀ x ∈ s.selectedItems, x.value ≠ d.value)
    (h2 : filterString d ∉ s.filterValues) :
    onDeselect (onSelect s d) d = s := by
  obtain ⟨si, fv⟩ := s
  simp only [onSelect, onDeselect] at h1 h2 ⊢
  congr 1
  · rw [List.filter_append]
    have e1 : si.filter (fun x => x.value != d.value) = si :=
      List.filter_eq_self.mpr (fun x hx => bne_iff_ne.mpr (h1 x hx))
    have e2 : [d].filter (fun x => x.value != d.value) = [] := by simp
    rw [e1, e2, List.append_nil]
  · rw [List.filter_append]
    have e1 : fv.filter (fun v => v != filterString d) = fv :=
      List.filter_eq_self.mpr (fun v hv => bne_iff_ne.mpr (fun he => h2 (he ▸ hv)))
    have e2 : [filterString d].filter (fun v => v != filterString d) = [] := by simp
    rw [e1, e2, List.append_nil]

/-- Witness for the amended C6 theorem at a concrete state and entry. -/
theorem select_deselect_identity_witness :
    (∀ x ∈ (BrowseByTaxonomyState.mk [VocabularyEntryDetail.mk "l1" "HUMANITIES and RELIGION"]
        ["HUMANITIES and RELIGION,equals"]).selectedItems,
      x.value ≠ (VocabularyEntryDetail.mk "l2" "TECHNOLOGY").value) ∧
    filterString (VocabularyEntryDetail.mk "l2" "TECHNOLOGY") ∉
      (BrowseByTaxonomyState.mk [VocabularyEntryDetail.mk "l1" "HUMANITIES and RELIGION"]
        ["HUMANITIES and RELIGION,equals"]).filterValues ∧
    onDeselect (onSelect (BrowseByTaxonomyState.mk
        [VocabularyEntryDetail.mk "l1" "HUMANITIES and RELIGION"]
        ["HUMANITIES and RELIGION,equals"]) (VocabularyEntryDetail.mk "l2" "TECHNOLOGY"))
      (VocabularyEntryDetail.mk "l2" "TECHNOLOGY") =
      BrowseByTaxonomyState.mk [VocabularyEntryDetail.mk "l1" "HUMANITIES and RELIGION"]
        ["HUMANITIES and RELIGION,equals"] :=
  ⟨by decide, by decide,
   select_deselect_identity
     (BrowseByTaxonomyState.mk [VocabularyEntryDetail.mk "l1" "HUMANITIES and RELIGION"]
       ["HUMANITIES and RELIGION,equals"])
     (VocabularyEntryDetail.mk "l2" "TECHNOLOGY") (by decide) (by decide)⟩

/-- Claim C8: every request passed through the log interceptor carries the
X-CORRELATION-ID and X-REFERRER headers, valued with the service-provided
correlation id and the current router URL, both non-empty whenever those
sources are. -/
theorem log_interceptor_headers (correlationId routerUrl : String) (req : HttpRequest)
    (hc : correlationId ≠ "") (hr : routerUrl ≠ "") :
    (("X-CORRELATION-ID", correlationId) ∈ (logIntercept correlationId routerUrl req).headers ∧
      correlationId ≠ "") ∧
    (("X-REFERRER", routerUrl) ∈ (logIntercept correlationId routerUrl req).headers ∧
      routerUrl ≠ "") := by
  refine ⟨⟨?_, hc⟩, ?_, hr⟩ <;> simp [logIntercept]

/-- Witness for the C8 theorem with the values of the interceptor test. -/
theorem log_interceptor_headers_witness :
    ("123455" ≠ "") ∧ ("/statistics" ≠ "") ∧
    ("X-CORRELATION-ID", "123455") ∈
      (logIntercept "123455" "/statistics"
        (HttpRequest.mk "server/api/core/items" [])).headers :=
  ⟨by decide, by decide,
   ((log_interceptor_headers "123455" "/statistics" (HttpRequest.mk "server/api/core/items" [])
      (by decide) (by decide)).1).1⟩
